import Mathlib

/-!
Verification of the video batch-processing core (`video_tool_core.py`).

The Python core drives three operations (frame extraction, MP4 conversion,
directory merge) over a filesystem, delegating pixel work to OpenCV.  We
embed the core shallowly: the filesystem and the video I/O collaborator are
an abstract environment `Env`, each Python function becomes a Lean function
returning its boolean result together with the ordered trace of observable
effects (`Ev`): log lines, directory creation, image writes, stream/sink
opens, frame writes and releases.  Python path/string operations
(`pathlib.Path.suffix/.stem/.parent`, `str.lower`, `str.lstrip`) are
modelled character-by-character on ASCII.
-/

/-- One decoded frame: `width` is `frame.shape[1]`, `height` is
`frame.shape[0]`; `payload` tags the pixel content so frames from different
sources stay distinguishable. -/
structure Frame where
  width : Nat
  height : Nat
  payload : Nat
deriving DecidableEq, Repr

/-- Model of `cv2.resize(frame, (w, h))`: the result has the requested
geometry and carries the same source content. -/
def resizeFrame (f : Frame) (w h : Nat) : Frame :=
  { width := w, height := h, payload := f.payload }

/-- Observable effects of the core, in program order. -/
inductive Ev where
  | log (line : String)
  | mkdir (path : String)
  | imwrite (path : String)
  | capOpen (path : String)
  | capRelease (path : String)
  | sinkCreate (path : String)
  | sinkWrite (path : String) (f : Frame)
  | sinkRelease (path : String)
deriving DecidableEq, Repr

/-- What `cv2.VideoCapture(path)` yields for a given path: whether
`isOpened()` holds, the reported `CAP_PROP_FPS`, `CAP_PROP_FRAME_WIDTH`,
`CAP_PROP_FRAME_HEIGHT` (already truncated to integers as the code does),
and the sequence of frames `read()` will deliver before end-of-stream. -/
structure VideoData where
  opensOk : Bool
  fps : Rat
  width : Nat
  height : Nat
  frames : List Frame
deriving DecidableEq, Repr

/-- The abstract filesystem / OpenCV environment the core runs against. -/
structure Env where
  isDir : String → Bool
  isFile : String → Bool
  exists_ : String → Bool
  rglob : String → List String
  listdir : String → List String
  video : String → VideoData
  writerOk : String → Bool

/-! ## Python string / path model (ASCII) -/

/-- ASCII model of Python `str.lower` on one character. -/
def pyCharLower (c : Char) : Char :=
  match c with
  | 'A' => 'a' | 'B' => 'b' | 'C' => 'c' | 'D' => 'd' | 'E' => 'e'
  | 'F' => 'f' | 'G' => 'g' | 'H' => 'h' | 'I' => 'i' | 'J' => 'j'
  | 'K' => 'k' | 'L' => 'l' | 'M' => 'm' | 'N' => 'n' | 'O' => 'o'
  | 'P' => 'p' | 'Q' => 'q' | 'R' => 'r' | 'S' => 's' | 'T' => 't'
  | 'U' => 'u' | 'V' => 'v' | 'W' => 'w' | 'X' => 'x' | 'Y' => 'y'
  | 'Z' => 'z' | c => c

/-- Model of Python `str.lower`. -/
def pyLower (s : String) : String :=
  String.mk (s.toList.map pyCharLower)

/-- Split a character list on `/` separators (POSIX path separator). -/
def splitSlash : List Char → List (List Char)
  | [] => [[]]
  | c :: rest =>
    let r := splitSlash rest
    if c = '/' then [] :: r
    else
      match r with
      | h :: t => (c :: h) :: t
      | [] => [[c]]

/-- The non-trivial path components of a path string, the way
`pathlib.PurePosixPath` normalises them (empty components and lone `.`
components are dropped, `..` is kept). -/
def pathComps (p : String) : List (List Char) :=
  (splitSlash p.toList).filter (fun c => !(c = []) && !(c = ['.']))

/-- Character list of `Path(p).name` (the final component, `""` for a
root or empty path). -/
def pathNameChars (p : String) : List Char :=
  (pathComps p).getLastD []

/-- Index of the last occurrence of a character, if any. -/
def lastIdxOf (c : Char) : List Char → Option Nat
  | [] => none
  | a :: rest =>
    match lastIdxOf c rest with
    | some i => some (i + 1)
    | none => if a = c then some 0 else none

/-- The suffix of one path component: the part from its last dot,
provided that dot is neither the first nor the last character. -/
def suffixFromName (n : List Char) : List Char :=
  match lastIdxOf '.' n with
  | some i => if 0 < i ∧ i < n.length - 1 then n.drop i else []
  | none => []

/-- The stem of one path component: the component with `suffixFromName`
removed. -/
def stemFromName (n : List Char) : List Char :=
  match lastIdxOf '.' n with
  | some i => if 0 < i ∧ i < n.length - 1 then n.take i else n
  | none => n

/-- Model of `pathlib.Path(p).suffix`. -/
def pySuffix (p : String) : String :=
  String.mk (suffixFromName (pathNameChars p))

/-- Model of `pathlib.Path(p).stem`. -/
def pyStem (p : String) : String :=
  String.mk (stemFromName (pathNameChars p))

/-- Whether the path string is absolute. -/
def pathIsAbs (p : String) : Bool :=
  p.toList.headD ' ' = '/'

/-- Rebuild a path string from an absolute flag and components, the way
`str(PurePosixPath(...))` renders it. -/
def joinComps (isAbsolute : Bool) (comps : List (List Char)) : String :=
  let body := String.mk (List.intercalate ['/'] comps)
  if isAbsolute then "/" ++ body
  else if comps = [] then "." else body

/-- Model of `pathlib.Path(p).parent`. -/
def pathParent (p : String) : String :=
  joinComps (pathIsAbs p) (pathComps p).dropLast

/-- Model of `parent / child` on paths (`pathlib` drops a lone `.`). -/
def pathJoin (a b : String) : String :=
  if a = "." then b
  else if a = "/" then "/" ++ b
  else a ++ "/" ++ b

/-- Model of `Path(p).with_suffix(".mp4")`. -/
def withSuffixMp4 (p : String) : String :=
  pathJoin (pathParent p) (pyStem p ++ ".mp4")

/-- Model of `str.lstrip(".")`: drop every leading dot. -/
def stripDots (s : String) : String :=
  String.mk (s.toList.dropWhile (fun c => c = '.'))

/-- `VIDEO_EXTENSIONS` from the source. -/
def VIDEO_EXTENSIONS : List String :=
  ["mp4", "avi", "mkv", "mov", "flv", "wmv", "webm"]

/-- `is_video_file` from the source:
`Path(p).suffix.lower().lstrip(".") in VIDEO_EXTENSIONS`. -/
def is_video_file (p : String) : Bool :=
  VIDEO_EXTENSIONS.contains (stripDots (pyLower (pySuffix p)))

/-- Lexicographic comparison of character lists by code point — the
order Python uses on strings. -/
def charListLe : List Char → List Char → Bool
  | [], _ => true
  | _ :: _, [] => false
  | a :: as, b :: bs =>
    if a.toNat < b.toNat then true
    else if b.toNat < a.toNat then false
    else charListLe as bs

/-- Python string `<=` (code-point lexicographic). -/
def strLe (a b : String) : Bool :=
  charListLe a.toList b.toList

/-- Insert into a string list sorted ascending (helper for `sortStrings`). -/
def insertSorted (x : String) : List String → List String
  | [] => [x]
  | y :: ys => if strLe x y = true then x :: y :: ys else y :: insertSorted x ys

/-- Model of Python `sorted` on the path strings of one directory
(lexicographic by code point, which is what tuple-of-parts comparison
gives for paths sharing their directory). -/
def sortStrings (l : List String) : List String :=
  l.foldr insertSorted []

/-! ## Frame-rate model -/

/-- `_safe_fps` from the source: `fps = cap.get(CAP_PROP_FPS) or 0.0;
return fps if fps and fps > 0 else default`.  A zero rate is falsy, so the
reported rate is kept exactly when it is nonzero and positive. -/
def safe_fps (fps : Rat) (default : Rat := 25) : Rat :=
  if fps ≠ 0 ∧ fps > 0 then fps else default

/-- Python `round` on a (dyadic-rational-valued) float: round half to
even, written on the numerator and positive denominator of the reduced
fraction (`q` is the floor, `r` the remainder, a tie is `2r = den`). -/
def pyRound (x : Rat) : Int :=
  let q := x.num.ediv (x.den : Int)
  let r := x.num - q * (x.den : Int)
  if 2 * r < (x.den : Int) then q
  else if (x.den : Int) < 2 * r then q + 1
  else if q % 2 = 0 then q else q + 1

/-- The sampling interval of `_extract_frames_single`:
`max(int(round(fps)), 1)` applied to the safe frame rate. -/
def frame_interval (fps : Rat) : Nat :=
  (max (pyRound (safe_fps fps)) 1).toNat

/-- The interval exactly as claim C3 words it: `max(round(F'), 1)` where
`F'` is `F` if `F > 0` and `25.0` otherwise. -/
def specInterval (F : Rat) : Nat :=
  (max (pyRound (if 0 < F then F else 25)) 1).toNat

/-! ## getframe (`extract_frames`) -/

/-- `_iter_all_files` from the source: every recursively reachable entry
that is a regular file and passes `is_video_file`. -/
def iterAllFiles (env : Env) (root : String) : List String :=
  (env.rglob root).filter (fun p => env.isFile p && is_video_file p)

/-- The sibling output directory `{stem}_frames` of a video path. -/
def framesDir (p : String) : String :=
  pathJoin (pathParent p) (pyStem p ++ "_frames")

/-- The image path `{out_dir}/{name}_{n}.png` of the `n`-th saved frame. -/
def imgPath (outDir name : String) (n : Nat) : String :=
  pathJoin outDir (name ++ "_" ++ toString n ++ ".png")

/-- The frame loop of `_extract_frames_single`: walk the decoded frames
with a zero-based index and a next-save counter; whenever the index
reaches the counter, write image number `saved + 1` and advance the
counter by the interval. -/
def sampleLoop (outDir name : String) (k : Nat) :
    List Frame → Nat → Nat → Nat → List Ev
  | [], _, _, _ => []
  | _ :: rest, saved, idx, next_save =>
    if next_save ≤ idx then
      Ev.imwrite (imgPath outDir name (saved + 1)) ::
        sampleLoop outDir name k rest (saved + 1) (idx + 1) (next_save + k)
    else
      sampleLoop outDir name k rest saved (idx + 1) next_save

/-- `_extract_frames_single` from the source. -/
def _extract_frames_single (env : Env) (video_path : String) : Bool × List Ev :=
  if env.exists_ video_path = false then
    (false, [Ev.log ("Error: File \x27" ++ video_path ++ "\x27 does not exist.")])
  else
    let name := pyStem video_path
    let out_dir := framesDir video_path
    let d := env.video video_path
    if d.opensOk = false then
      (false, [Ev.mkdir out_dir, Ev.capOpen video_path,
               Ev.log ("Error: Cannot open video \x27" ++ video_path ++ "\x27.")])
    else
      let k := frame_interval d.fps
      (true, [Ev.mkdir out_dir, Ev.capOpen video_path] ++
             sampleLoop out_dir name k d.frames 0 0 0 ++
             [Ev.capRelease video_path,
              Ev.log ("Frames saved to directory: " ++ out_dir)])

/-- The trace segment one file contributes inside the directory loop of
`extract_frames`. -/
def extractSeg (env : Env) (f : String) : List Ev :=
  Ev.log ("Processing video file: " ++ f) ::
    (_extract_frames_single env f).2 ++
    (if (_extract_frames_single env f).1 = true then []
     else [Ev.log ("Processing failed: " ++ f)])

/-- The directory loop of `extract_frames`. -/
def extractDirLoop (env : Env) : List String → Bool × List Ev
  | [] => (true, [])
  | f :: rest =>
    let r := _extract_frames_single env f
    let t := extractDirLoop env rest
    (r.1 && t.1,
     (Ev.log ("Processing video file: " ++ f) :: r.2 ++
      (if r.1 = true then [] else [Ev.log ("Processing failed: " ++ f)])) ++ t.2)

/-- `extract_frames` from the source. -/
def extract_frames (env : Env) (input_path : String) : Bool × List Ev :=
  if env.isDir input_path = true then
    let r := extractDirLoop env (iterAllFiles env input_path)
    (r.1, [Ev.log ("Detected directory: " ++ input_path),
           Ev.log "Starting to process video files in directory..."] ++
          r.2 ++ [Ev.log "All video files processed."])
  else if env.isFile input_path = true then
    if is_video_file input_path = false then
      (false, [Ev.log ("Error: File \x27" ++ input_path ++
                       "\x27 is not a supported video format.")])
    else
      let r := _extract_frames_single env input_path
      (r.1, Ev.log ("Processing single video file: " ++ input_path) :: r.2 ++
            [Ev.log (if r.1 = true then "Video file processed successfully."
                     else "Video file processing failed.")])
  else
    (false, [Ev.log ("Error: \x27" ++ input_path ++
                     "\x27 is neither a file nor a directory.")])

/-! ## getmp4 (`convert_to_mp4`) -/

/-- The frame-copy loop of `_convert_single_to_mp4`: every decoded frame
is written to the sink verbatim. -/
def copyLoop (out : String) (fs : List Frame) : List Ev :=
  fs.map (fun f => Ev.sinkWrite out f)

/-- `_convert_single_to_mp4` from the source. -/
def _convert_single_to_mp4 (env : Env) (video_path : String) : Bool × List Ev :=
  if pyLower (pySuffix video_path) = ".mp4" then
    (true, [Ev.log ("File \x27" ++ video_path ++
                    "\x27 is already in MP4 format, skipping conversion.")])
  else
    let d := env.video video_path
    if d.opensOk = false then
      (false, [Ev.capOpen video_path,
               Ev.log ("Error: Cannot open video \x27" ++ video_path ++ "\x27.")])
    else if d.width = 0 ∨ d.height = 0 then
      (false, [Ev.capOpen video_path, Ev.capRelease video_path,
               Ev.log ("Error: Cannot determine resolution for \x27" ++
                       video_path ++ "\x27.")])
    else
      let out_path := withSuffixMp4 video_path
      if env.writerOk out_path = false then
        (false, [Ev.capOpen video_path, Ev.capRelease video_path,
                 Ev.log ("Error: Cannot create output MP4 for \x27" ++
                         video_path ++ "\x27.")])
      else if d.frames.length = 0 then
        (false, [Ev.capOpen video_path, Ev.sinkCreate out_path] ++
                copyLoop out_path d.frames ++
                [Ev.sinkRelease out_path, Ev.capRelease video_path,
                 Ev.log ("Error: No frames written for \x27" ++ video_path ++ "\x27.")])
      else
        (true, [Ev.capOpen video_path, Ev.sinkCreate out_path] ++
               copyLoop out_path d.frames ++
               [Ev.sinkRelease out_path, Ev.capRelease video_path,
                Ev.log "Note: Audio is not preserved when converting without ffmpeg.",
                Ev.log ("Converted \x27" ++ video_path ++ "\x27 to \x27" ++
                        withSuffixMp4 video_path ++ "\x27")])

/-- The trace segment one file contributes inside the directory loop of
`convert_to_mp4` (MP4 files are skipped with a log line and `continue`). -/
def convertSeg (env : Env) (f : String) : List Ev :=
  if pyLower (pySuffix f) = ".mp4" then
    [Ev.log ("File \x27" ++ f ++ "\x27 is already in MP4 format, skipping conversion.")]
  else
    Ev.log ("Processing video file: " ++ f) ::
      (_convert_single_to_mp4 env f).2 ++
      (if (_convert_single_to_mp4 env f).1 = true then []
       else [Ev.log ("Processing failed: " ++ f)])

/-- The directory loop of `convert_to_mp4`. -/
def convertDirLoop (env : Env) : List String → Bool × List Ev
  | [] => (true, [])
  | f :: rest =>
    let t := convertDirLoop env rest
    if pyLower (pySuffix f) = ".mp4" then
      (t.1, Ev.log ("File \x27" ++ f ++
                    "\x27 is already in MP4 format, skipping conversion.") :: t.2)
    else
      let r := _convert_single_to_mp4 env f
      (r.1 && t.1,
       (Ev.log ("Processing video file: " ++ f) :: r.2 ++
        (if r.1 = true then [] else [Ev.log ("Processing failed: " ++ f)])) ++ t.2)

/-- `convert_to_mp4` from the source. -/
def convert_to_mp4 (env : Env) (input_path : String) : Bool × List Ev :=
  if env.isDir input_path = true then
    let r := convertDirLoop env (iterAllFiles env input_path)
    (r.1, [Ev.log ("Detected directory: " ++ input_path),
           Ev.log "Starting to convert non-MP4 video files in directory..."] ++
          r.2 ++ [Ev.log "All video files converted."])
  else if env.isFile input_path = true then
    if is_video_file input_path = false then
      (false, [Ev.log ("Error: File \x27" ++ input_path ++
                       "\x27 is not a supported video format.")])
    else
      let r := _convert_single_to_mp4 env input_path
      (r.1, Ev.log ("Processing single video file: " ++ input_path) :: r.2 ++
            [Ev.log (if r.1 = true then "Video file converted successfully."
                     else "Video file conversion failed.")])
  else
    (false, [Ev.log ("Error: \x27" ++ input_path ++
                     "\x27 is neither a file nor a directory.")])

/-! ## mergevideo (`_merge_dir`) -/

/-- The sorted qualifying videos of one directory:
`sorted([directory / f for f in os.listdir(directory) if is_video_file(directory / f)])`. -/
def qualifyingVids (env : Env) (directory : String) : List String :=
  sortStrings (((env.listdir directory).filter
      (fun f => is_video_file (pathJoin directory f))).map
    (fun f => pathJoin directory f))

/-- The inner frame loop of `_merge_dir` for one opened source: any frame
whose actual shape differs from the reference geometry is resized to it
before being written. -/
def mergeFrames (out : String) (w0 h0 : Nat) : List Frame → List Ev
  | [] => []
  | f :: rest =>
    let f2 := if f.width ≠ w0 ∨ f.height ≠ h0 then resizeFrame f w0 h0 else f
    Ev.sinkWrite out f2 :: mergeFrames out w0 h0 rest

/-- The per-source loop of `_merge_dir`: a source failing to open is
logged and skipped; an opened source has all its frames written (resized
when needed) and is then released.  Returns the trace and the
`total_frames` counter. -/
def mergeSrcLoop (env : Env) (out : String) (w0 h0 : Nat) :
    List String → List Ev × Nat
  | [] => ([], 0)
  | v :: rest =>
    let t := mergeSrcLoop env out w0 h0 rest
    let d := env.video v
    if d.opensOk = false then
      (Ev.capOpen v ::
         Ev.log ("Error: Cannot open \x27" ++ v ++ "\x27, skipping.") :: t.1, t.2)
    else
      (Ev.capOpen v ::
         (if d.width ≠ w0 ∨ d.height ≠ h0 then
            [Ev.log ("Warning: Resizing \x27" ++ v ++ "\x27 to match first video.")]
          else []) ++
         mergeFrames out w0 h0 d.frames ++ Ev.capRelease v :: t.1,
       d.frames.length + t.2)

/-- The body of `_merge_dir` once the qualifying list is known. -/
def mergeWithVids (env : Env) (directory : String) : List String → Bool × List Ev
  | v0 :: v1 :: rest =>
    let d0 := env.video v0
    if d0.opensOk = false then
      (false, [Ev.capOpen v0, Ev.log ("Error: Cannot open \x27" ++ v0 ++ "\x27")])
    else if d0.width = 0 ∨ d0.height = 0 then
      (false, [Ev.capOpen v0, Ev.capRelease v0,
               Ev.log ("Error: Cannot determine resolution from \x27" ++ v0 ++ "\x27.")])
    else
      let out_path := pathJoin directory "merged_output.mp4"
      if env.writerOk out_path = false then
        (false, [Ev.capOpen v0, Ev.capRelease v0,
                 Ev.log ("Error: Cannot create \x27" ++ out_path ++ "\x27.")])
      else
        let t := mergeSrcLoop env out_path d0.width d0.height (v0 :: v1 :: rest)
        (true, [Ev.capOpen v0, Ev.capRelease v0, Ev.sinkCreate out_path] ++
               t.1 ++
               [Ev.sinkRelease out_path,
                Ev.log "Note: Audio is not preserved when merging without ffmpeg.",
                Ev.log ("Merged " ++ toString (v0 :: v1 :: rest).length ++
                        " videos in directory \x27" ++ directory ++ "\x27 into \x27" ++
                        out_path ++ "\x27 (frames written: " ++ toString t.2 ++ ")")])
  | _ =>
    (true, [Ev.log ("Less than 2 video files in directory \x27" ++ directory ++
                    "\x27, skipping merge.")])

/-- `_merge_dir` from the source. -/
def _merge_dir (env : Env) (directory : String) : Bool × List Ev :=
  mergeWithVids env directory (qualifyingVids env directory)

/-! ## Trace observers -/

/-- The image-write events of a trace. -/
def imwrites (t : List Ev) : List Ev :=
  t.filter (fun e => match e with | Ev.imwrite _ => true | _ => false)

/-- How many frames a trace writes to a sink. -/
def countWrites : List Ev → Nat
  | [] => 0
  | Ev.sinkWrite _ _ :: t => countWrites t + 1
  | _ :: t => countWrites t

/-- A trace consisting of log lines only: it opens nothing and creates or
modifies no file. -/
def writeFree (t : List Ev) : Bool :=
  t.all (fun e => match e with | Ev.log _ => true | _ => false)

/-- The frame counts of the sources that opened successfully (sources that
fail to open contribute nothing). -/
def openSum (env : Env) : List String → Nat
  | [] => 0
  | v :: rest =>
    (if (env.video v).opensOk = true then (env.video v).frames.length else 0) +
      openSum env rest

/-- Concatenation of per-item trace segments (the shape of a loop body
that never exits early). -/
def concatMap (g : String → List Ev) : List String → List Ev
  | [] => []
  | x :: xs => g x ++ concatMap g xs

/-- Strip one leading dot from a character list. -/
def stripOneDot (l : List Char) : List Char :=
  match l with
  | c :: t => if c = '.' then t else c :: t
  | [] => []

/-- The extension as claim C7 words it: the path's suffix, lower-cased,
stripped of its leading dot. -/
def specVideoExt (p : String) : String :=
  String.mk (stripOneDot ((pySuffix p).toList.map pyCharLower))

/-! ## Concrete demonstration environments -/

/-- A small filesystem for the extraction / conversion demonstrations:
one directory `root` holding an ordinary video, a corrupt video, an MP4,
an empty-stream video, a text file and a subdirectory. -/
def envA : Env :=
  { isDir := fun p => p = "root"
    isFile := fun p =>
      p = "root/a.avi" ∨ p = "root/bad.mkv" ∨ p = "root/c.mp4" ∨
        p = "root/e.wmv" ∨ p = "root/notes.txt"
    exists_ := fun p =>
      p = "root/a.avi" ∨ p = "root/bad.mkv" ∨ p = "root/c.mp4" ∨
        p = "root/e.wmv" ∨ p = "root/notes.txt" ∨ p = "root/sub" ∨ p = "root"
    rglob := fun p =>
      if p = "root" then
        ["root/a.avi", "root/bad.mkv", "root/c.mp4", "root/e.wmv",
         "root/notes.txt", "root/sub"]
      else []
    listdir := fun p =>
      if p = "root" then
        ["a.avi", "bad.mkv", "c.mp4", "e.wmv", "notes.txt", "sub"]
      else []
    video := fun p =>
      if p = "root/a.avi" then
        { opensOk := true, fps := 2, width := 4, height := 3,
          frames := [⟨4, 3, 0⟩, ⟨4, 3, 1⟩, ⟨4, 3, 2⟩, ⟨4, 3, 3⟩] }
      else if p = "root/c.mp4" then
        { opensOk := true, fps := 1, width := 2, height := 2,
          frames := [⟨2, 2, 4⟩] }
      else if p = "root/e.wmv" then
        { opensOk := true, fps := 3, width := 2, height := 2, frames := [] }
      else
        { opensOk := false, fps := 0, width := 0, height := 0, frames := [] }
    writerOk := fun _ => true }

/-- A small filesystem for the merge demonstrations: directory `d` holds
two openable videos of different geometry plus one corrupt one; directory
`e` holds one real video and a subdirectory whose name carries a video
extension. -/
def envM : Env :=
  { isDir := fun p => p = "d" ∨ p = "e"
    isFile := fun p =>
      p = "d/a.mp4" ∨ p = "d/b.avi" ∨ p = "d/s.mkv" ∨ p = "e/one.mp4"
    exists_ := fun _ => true
    rglob := fun _ => []
    listdir := fun p =>
      if p = "d" then ["b.avi", "a.mp4", "s.mkv"]
      else if p = "e" then ["sub.avi", "one.mp4"]
      else []
    video := fun p =>
      if p = "d/a.mp4" then
        { opensOk := true, fps := 3, width := 4, height := 3,
          frames := [⟨4, 3, 10⟩, ⟨2, 2, 11⟩] }
      else if p = "d/s.mkv" then
        { opensOk := true, fps := 5, width := 2, height := 2,
          frames := [⟨2, 2, 20⟩] }
      else if p = "e/one.mp4" then
        { opensOk := true, fps := 3, width := 6, height := 4,
          frames := [⟨6, 4, 30⟩, ⟨6, 4, 31⟩] }
      else
        { opensOk := false, fps := 0, width := 0, height := 0, frames := [] }
    writerOk := fun _ => true }

/-! ## String lemmas for the classifier -/

lemma toList_mk (l : List Char) : (String.mk l).toList = l := rfl

lemma pyCharLower_ne_dot {c : Char} (h : c ≠ '.') : pyCharLower c ≠ '.' := by
  unfold pyCharLower
  split <;> simp_all

lemma lastIdxOf_none {c : Char} : ∀ {cs : List Char},
    lastIdxOf c cs = none → ∀ x ∈ cs, x ≠ c := by
  intro cs
  induction cs with
  | nil => intro _ x hx; cases hx
  | cons a rest ih =>
    intro h x hx
    unfold lastIdxOf at h
    cases hrec : lastIdxOf c rest with
    | some i => rw [hrec] at h; cases h
    | none =>
      rw [hrec] at h
      by_cases hac : a = c
      · rw [if_pos hac] at h; cases h
      · rcases List.mem_cons.mp hx with rfl | hx
        · exact hac
        · exact ih hrec x hx

lemma lastIdxOf_spec {c : Char} : ∀ {cs : List Char} {i : Nat},
    lastIdxOf c cs = some i →
    ∃ t, cs.drop i = c :: t ∧ ∀ x ∈ t, x ≠ c := by
  intro cs
  induction cs with
  | nil => intro i h; cases h
  | cons a rest ih =>
    intro i h
    unfold lastIdxOf at h
    cases hrec : lastIdxOf c rest with
    | some j =>
      rw [hrec] at h
      cases h
      simpa using ih hrec
    | none =>
      rw [hrec] at h
      by_cases hac : a = c
      · rw [if_pos hac] at h
        cases h
        exact ⟨rest, by simp [hac], lastIdxOf_none hrec⟩
      · rw [if_neg hac] at h; cases h

/-- Shape of `suffixFromName`: empty, or a dot followed by a dot-free
tail. -/
lemma suffixFromName_shape (n : List Char) :
    suffixFromName n = [] ∨
    ∃ t, suffixFromName n = '.' :: t ∧ ∀ x ∈ t, x ≠ '.' := by
  unfold suffixFromName
  cases h : lastIdxOf '.' n with
  | none => exact Or.inl rfl
  | some i =>
    dsimp only
    by_cases hb : 0 < i ∧ i < n.length - 1
    · rw [if_pos hb]
      rcases lastIdxOf_spec h with ⟨t, hdrop, ht⟩
      exact Or.inr ⟨t, hdrop, ht⟩
    · rw [if_neg hb]; exact Or.inl rfl

lemma dropWhile_dot_of_ne {t : List Char} (ht : ∀ x ∈ t, x ≠ '.') :
    t.dropWhile (fun c => c = '.') = t := by
  cases t with
  | nil => rfl
  | cons a rest =>
    have : a ≠ '.' := ht a (List.mem_cons_self a rest)
    simp [List.dropWhile_cons, this]

/-- The code's `suffix.lower().lstrip(".")` computes exactly the
spec-side extension. -/
lemma stripDots_pyLower_pySuffix (p : String) :
    stripDots (pyLower (pySuffix p)) = specVideoExt p := by
  unfold stripDots pyLower specVideoExt pySuffix
  rw [toList_mk, toList_mk]
  congr 1
  rcases suffixFromName_shape (pathNameChars p) with h | ⟨t, h, ht⟩
  · rw [h]; rfl
  · rw [h]
    have hdot : pyCharLower '.' = '.' := rfl
    have htm : ∀ x ∈ t.map pyCharLower, x ≠ '.' := by
      intro x hx
      rcases List.mem_map.mp hx with ⟨y, hy, rfl⟩
      exact pyCharLower_ne_dot (ht y hy)
    simp only [List.map_cons, hdot, List.dropWhile_cons, stripOneDot]
    rw [dropWhile_dot_of_ne htm]
    simp

/-- C7: the file classifier returns true exactly when the extension —
the path's suffix, lower-cased and stripped of its leading dot — lies in
the fixed set `{mp4, avi, mkv, mov, flv, wmv, webm}`; every other
extension (including none) yields false, and the function is total. -/
theorem classifier_iff_supported_ext (p : String) :
    is_video_file p = true ↔ specVideoExt p ∈ VIDEO_EXTENSIONS := by
  unfold is_video_file
  rw [stripDots_pyLower_pySuffix]
  exact List.elem_iff

/-! ## Sampler lemmas -/

lemma specInterval_pos (F : Rat) : 0 < specInterval F := by
  unfold specInterval
  have h : (1 : Int) ≤ max (pyRound (if 0 < F then F else 25)) 1 := le_max_right _ _
  omega

lemma frame_interval_eq_specInterval (F : Rat) :
    frame_interval F = specInterval F := by
  unfold frame_interval specInterval safe_fps
  congr 2
  by_cases h : 0 < F
  · rw [if_pos ⟨ne_of_gt h, h⟩, if_pos h]
  · rw [if_neg (fun hc => h hc.2), if_neg h]

/-- Closed form of the sampling loop: with interval `k`, starting gap
`next - idx < k` and `saved` images already written, the loop writes the
contiguously numbered images `saved+1, saved+2, ...`, one per `k` frames. -/
lemma sampleLoop_eq (outDir name : String) (k : Nat) (hk : 0 < k) :
    ∀ (frames : List Frame) (saved idx next : Nat), idx ≤ next → next - idx < k →
    sampleLoop outDir name k frames saved idx next =
      (List.range ((frames.length - (next - idx) + k - 1) / k)).map
        (fun j => Ev.imwrite (imgPath outDir name (saved + j + 1))) := by
  intro frames
  induction frames with
  | nil =>
    intro saved idx next h1 h2
    have hz : (List.length ([] : List Frame) - (next - idx) + k - 1) / k = 0 :=
      Nat.div_eq_of_lt (by simp; omega)
    rw [hz]
    rfl
  | cons f rest ih =>
    intro saved idx next h1 h2
    by_cases hle : next ≤ idx
    · have heq : idx = next := le_antisymm h1 hle
      have hc1 : ((f :: rest).length - (next - idx) + k - 1) / k = rest.length / k + 1 := by
        have hg : next - idx = 0 := by omega
        have hlen : (f :: rest).length - 0 + k - 1 = rest.length + k := by
          simp only [List.length_cons]
          omega
        rw [hg, hlen, Nat.add_div_right _ hk]
      have hc2 : (rest.length - (next + k - (idx + 1)) + k - 1) / k = rest.length / k := by
        have hg : next + k - (idx + 1) = k - 1 := by omega
        rw [hg]
        rcases le_or_lt (k - 1) rest.length with hcase | hcase
        · congr 1
          omega
        · have hz : rest.length - (k - 1) = 0 := by omega
          rw [hz, Nat.div_eq_of_lt (by omega), Nat.div_eq_of_lt (by omega)]
      rw [show sampleLoop outDir name k (f :: rest) saved idx next =
            (if next ≤ idx then
              Ev.imwrite (imgPath outDir name (saved + 1)) ::
                sampleLoop outDir name k rest (saved + 1) (idx + 1) (next + k)
            else sampleLoop outDir name k rest saved (idx + 1) next) from rfl,
         if_pos hle,
         ih (saved + 1) (idx + 1) (next + k) (by omega) (by omega), hc2, hc1,
         List.range_succ_eq_map, List.map_cons, List.map_map]
      simp only [Nat.add_zero, List.cons.injEq]
      refine ⟨trivial, List.map_congr_left ?_⟩
      intro j _
      show Ev.imwrite (imgPath outDir name (saved + 1 + j + 1)) =
        Ev.imwrite (imgPath outDir name (saved + (j + 1) + 1))
      congr 2
      omega
    · have hlt : idx < next := lt_of_not_le hle
      rw [show sampleLoop outDir name k (f :: rest) saved idx next =
            (if next ≤ idx then
              Ev.imwrite (imgPath outDir name (saved + 1)) ::
                sampleLoop outDir name k rest (saved + 1) (idx + 1) (next + k)
            else sampleLoop outDir name k rest saved (idx + 1) next) from rfl,
         if_neg hle,
         ih saved (idx + 1) next (by omega) (by omega)]
      have hg : rest.length - (next - (idx + 1)) = (f :: rest).length - (next - idx) := by
        simp
        omega
      rw [hg]

lemma sampleLoop_from_zero (outDir name : String) (k : Nat) (hk : 0 < k)
    (frames : List Frame) :
    sampleLoop outDir name k frames 0 0 0 =
      (List.range ((frames.length + k - 1) / k)).map
        (fun j => Ev.imwrite (imgPath outDir name (j + 1))) := by
  rw [sampleLoop_eq outDir name k hk frames 0 0 0 le_rfl (by omega)]
  rw [show frames.length - (0 - 0) + k - 1 = frames.length + k - 1 by omega]
  exact List.map_congr_left (fun j _ => by norm_num)

lemma imwrites_append (a b : List Ev) :
    imwrites (a ++ b) = imwrites a ++ imwrites b := by
  unfold imwrites
  simp [List.filter_append]

lemma imwrites_map_imgPath (outDir name : String) (l : List Nat) :
    imwrites (l.map (fun j => Ev.imwrite (imgPath outDir name (j + 1)))) =
      l.map (fun j => Ev.imwrite (imgPath outDir name (j + 1))) := by
  unfold imwrites
  rw [List.filter_eq_self.mpr]
  intro e he
  rcases List.mem_map.mp he with ⟨j, _, rfl⟩
  rfl

/-- Ceiling division over the naturals agrees with the rational ceiling. -/
lemma ceilDiv_cast (T k : Nat) (hk : 0 < k) :
    (((T + k - 1) / k : Nat) : Int) = Int.ceil ((T : Rat) / (k : Rat)) := by
  have hkq : (0 : Rat) < (k : Rat) := by exact_mod_cast hk
  obtain ⟨q, hq⟩ : ∃ q, (T + k - 1) / k = q := ⟨_, rfl⟩
  obtain ⟨s, hs0⟩ : ∃ s, (T + k - 1) % k = s := ⟨_, rfl⟩
  have e := Nat.div_add_mod (T + k - 1) k
  rw [hq, hs0] at e
  have hs : s < k := by rw [← hs0]; exact Nat.mod_lt _ hk
  have h2 : k * q + s + 1 = T + k := by omega
  have hq1 : (k : Rat) * (q : Rat) + (s : Rat) + 1 = (T : Rat) + (k : Rat) := by
    exact_mod_cast congrArg (fun n : Nat => (n : Rat)) h2
  have hsq : (s : Rat) + 1 ≤ (k : Rat) := by exact_mod_cast Nat.succ_le_of_lt hs
  have hsnn : (0 : Rat) ≤ (s : Rat) := Nat.cast_nonneg s
  rw [hq]
  symm
  rw [Int.ceil_eq_iff]
  constructor
  · rw [lt_div_iff₀ hkq]
    push_cast
    nlinarith [hq1, hsnn]
  · rw [div_le_iff₀ hkq]
    push_cast
    nlinarith [hq1, hsq]

/-- C3: for a stream that opens successfully and yields `T` decoded
frames at reported rate `F`, the sampler writes exactly
`ceil(T / max(round(F'), 1))` images, where `F'` is `F` if `F > 0` and
`25.0` otherwise, numbered contiguously from `_1`; and when `T = N·F`
(an `N`-second `F`-fps stream) with `round(F) ≥ 1` so that the quotient
is defined, that count equals `ceil(N·F / round(F))`. -/
theorem sampler_count_and_numbering (env : Env) (p : String)
    (hex : env.exists_ p = true) (hop : (env.video p).opensOk = true) :
    imwrites (_extract_frames_single env p).2 =
      (List.range (((env.video p).frames.length + specInterval (env.video p).fps - 1) /
          specInterval (env.video p).fps)).map
        (fun j => Ev.imwrite (imgPath (framesDir p) (pyStem p) (j + 1))) ∧
    (∀ N : Nat, 0 < (env.video p).fps →
      ((env.video p).frames.length : Rat) = (N : Rat) * (env.video p).fps →
      1 ≤ pyRound (env.video p).fps →
      ((((env.video p).frames.length + specInterval (env.video p).fps - 1) /
          specInterval (env.video p).fps : Nat) : Int) =
        Int.ceil (((N : Rat) * (env.video p).fps) /
          ((pyRound (env.video p).fps : Int) : Rat))) := by
  have hk : 0 < specInterval (env.video p).fps := specInterval_pos _
  constructor
  · unfold _extract_frames_single
    rw [if_neg (by rw [hex]; simp), if_neg (by rw [hop]; simp)]
    dsimp only
    rw [frame_interval_eq_specInterval]
    rw [sampleLoop_from_zero _ _ _ hk]
    rw [imwrites_append, imwrites_append, imwrites_map_imgPath]
    have h1 : imwrites [Ev.mkdir (framesDir p), Ev.capOpen p] = [] := rfl
    have h2 : imwrites [Ev.capRelease p,
        Ev.log ("Frames saved to directory: " ++ framesDir p)] = [] := rfl
    rw [h1, h2, List.nil_append, List.append_nil]
  · intro N hF hT hr
    have hkr : ((specInterval (env.video p).fps : Nat) : Int) =
        pyRound (env.video p).fps := by
      unfold specInterval
      rw [if_pos hF, max_eq_left hr]
      exact Int.toNat_of_nonneg (by omega)
    have hcast : ((specInterval (env.video p).fps : Nat) : Rat) =
        ((pyRound (env.video p).fps : Int) : Rat) := by
      exact_mod_cast congrArg (fun z : Int => (z : Rat)) hkr
    rw [← hT, ← hcast]
    exact ceilDiv_cast _ _ hk

/-- Closed instance of C3: a 4-frame 2-fps stream yields images `_1`
and `_2`, and the count matches the rational ceiling with `N = 2`. -/
theorem sampler_count_and_numbering_witness :
    envA.exists_ "root/a.avi" = true ∧
    (envA.video "root/a.avi").opensOk = true ∧
    imwrites (_extract_frames_single envA "root/a.avi").2 =
      [Ev.imwrite "root/a_frames/a_1.png", Ev.imwrite "root/a_frames/a_2.png"] ∧
    ((((envA.video "root/a.avi").frames.length +
        specInterval (envA.video "root/a.avi").fps - 1) /
        specInterval (envA.video "root/a.avi").fps : Nat) : Int) =
      Int.ceil ((((2 : Nat) : Rat) * (envA.video "root/a.avi").fps) /
        ((pyRound (envA.video "root/a.avi").fps : Int) : Rat)) := by
  refine ⟨by decide, by decide, ?_, ?_⟩
  · rw [(sampler_count_and_numbering envA "root/a.avi" (by decide) (by decide)).1]
    decide
  · exact (sampler_count_and_numbering envA "root/a.avi" (by decide) (by decide)).2 2
      (by decide)
      (by show ((4 : Nat) : Rat) = ((2 : Nat) : Rat) * (2 : Rat); norm_num)
      (by decide)

/-! ## Directory-loop lemmas -/

lemma extractDirLoop_eq (env : Env) (fs : List String) :
    extractDirLoop env fs =
      (fs.all (fun f => (_extract_frames_single env f).1),
       concatMap (extractSeg env) fs) := by
  induction fs with
  | nil => rfl
  | cons f rest ih =>
    simp only [extractDirLoop, ih, List.all_cons, concatMap, extractSeg,
      List.cons_append, List.append_assoc]

lemma convert_single_mp4 (env : Env) (f : String)
    (h : pyLower (pySuffix f) = ".mp4") :
    _convert_single_to_mp4 env f =
      (true, [Ev.log ("File \x27" ++ f ++
        "\x27 is already in MP4 format, skipping conversion.")]) := by
  unfold _convert_single_to_mp4
  rw [if_pos h]

lemma convertDirLoop_eq (env : Env) (fs : List String) :
    convertDirLoop env fs =
      (fs.all (fun f => (_convert_single_to_mp4 env f).1),
       concatMap (convertSeg env) fs) := by
  induction fs with
  | nil => rfl
  | cons f rest ih =>
    by_cases h : pyLower (pySuffix f) = ".mp4"
    · simp only [convertDirLoop, ih, if_pos h, List.all_cons,
        convert_single_mp4 env f h, concatMap, convertSeg, Bool.true_and,
        List.cons_append, List.nil_append]
    · simp only [convertDirLoop, ih, if_neg h, List.all_cons, concatMap,
        convertSeg, List.cons_append, List.append_assoc]

/-- C1: on a directory input, both `extract_frames` and `convert_to_mp4`
return the AND of the per-file results over every classified file, and the
run trace is the concatenation of one segment per classified file — no
failing file stops the processing of its siblings. -/
theorem dir_result_is_and_of_all_files (env : Env) (p : String)
    (hdir : env.isDir p = true) :
    (extract_frames env p).1 =
      (iterAllFiles env p).all (fun f => (_extract_frames_single env f).1) ∧
    (extract_frames env p).2 =
      [Ev.log ("Detected directory: " ++ p),
       Ev.log "Starting to process video files in directory..."] ++
        concatMap (extractSeg env) (iterAllFiles env p) ++
        [Ev.log "All video files processed."] ∧
    (convert_to_mp4 env p).1 =
      (iterAllFiles env p).all (fun f => (_convert_single_to_mp4 env f).1) ∧
    (convert_to_mp4 env p).2 =
      [Ev.log ("Detected directory: " ++ p),
       Ev.log "Starting to convert non-MP4 video files in directory..."] ++
        concatMap (convertSeg env) (iterAllFiles env p) ++
        [Ev.log "All video files converted."] := by
  unfold extract_frames convert_to_mp4
  rw [if_pos hdir, if_pos hdir]
  dsimp only
  rw [extractDirLoop_eq, convertDirLoop_eq]
  exact ⟨rfl, rfl, rfl, rfl⟩

/-- Closed instance of C1: `root` holds a good video, a corrupt one, an
MP4, an empty stream and junk; both runs report failure yet the traces
still contain one full segment per classified file. -/
theorem dir_result_is_and_of_all_files_witness :
    envA.isDir "root" = true ∧
    (extract_frames envA "root").1 = false ∧
    (extract_frames envA "root").2 =
      [Ev.log "Detected directory: root",
       Ev.log "Starting to process video files in directory..."] ++
        concatMap (extractSeg envA) (iterAllFiles envA "root") ++
        [Ev.log "All video files processed."] ∧
    (convert_to_mp4 envA "root").1 = false ∧
    (iterAllFiles envA "root").length = 4 := by
  have h := dir_result_is_and_of_all_files envA "root" (by decide)
  refine ⟨by decide, ?_, h.2.1, ?_, by decide⟩
  · rw [h.1]; decide
  · rw [h.2.2.1]; decide

/-- C9: for an existing single file accepted by the classifier,
`extract_frames` creates the sibling `{stem}_frames` directory before
attempting to open the stream, so even when the open fails and the
result is false, the `mkdir` effect has happened. -/
theorem extract_creates_dir_before_open (env : Env) (p : String)
    (hnd : env.isDir p = false) (hf : env.isFile p = true)
    (hvid : is_video_file p = true) (hex : env.exists_ p = true)
    (hop : (env.video p).opensOk = false) :
    (extract_frames env p).1 = false ∧
    (extract_frames env p).2 =
      [Ev.log ("Processing single video file: " ++ p),
       Ev.mkdir (framesDir p), Ev.capOpen p,
       Ev.log ("Error: Cannot open video \x27" ++ p ++ "\x27."),
       Ev.log "Video file processing failed."] := by
  unfold extract_frames _extract_frames_single
  rw [if_neg (by rw [hnd]; simp), if_pos hf, if_neg (by rw [hvid]; simp),
    if_neg (by rw [hex]; simp), if_pos hop]
  exact ⟨rfl, rfl⟩

/-- Closed instance of C9: the corrupt `root/bad.mkv` fails to open, the
result is false, yet `root/bad_frames` was created first. -/
theorem extract_creates_dir_before_open_witness :
    (extract_frames envA "root/bad.mkv").1 = false ∧
    (extract_frames envA "root/bad.mkv").2 =
      [Ev.log "Processing single video file: root/bad.mkv",
       Ev.mkdir "root/bad_frames", Ev.capOpen "root/bad.mkv",
       Ev.log "Error: Cannot open video \x27root/bad.mkv\x27.",
       Ev.log "Video file processing failed."] := by
  have h := extract_creates_dir_before_open envA "root/bad.mkv"
    (by decide) (by decide) (by decide) (by decide) (by decide)
  exact ⟨h.1, by rw [h.2]; decide⟩

/-! ## Conversion claims -/

/-- C5: a non-MP4 file whose stream and sink both open but which decodes
zero frames is reported as a failed conversion, and the handles are
released there as on every exit path: an opened stream is always
released, and a created sink is always released. -/
theorem convert_zero_frames_fails_and_releases (env : Env) (p : String) :
    (pyLower (pySuffix p) ≠ ".mp4" →
      (env.video p).opensOk = true →
      (env.video p).width ≠ 0 → (env.video p).height ≠ 0 →
      env.writerOk (withSuffixMp4 p) = true →
      (env.video p).frames = [] →
      (_convert_single_to_mp4 env p).1 = false ∧
      Ev.capRelease p ∈ (_convert_single_to_mp4 env p).2 ∧
      Ev.sinkRelease (withSuffixMp4 p) ∈ (_convert_single_to_mp4 env p).2) ∧
    (Ev.capOpen p ∈ (_convert_single_to_mp4 env p).2 →
      (env.video p).opensOk = true →
      Ev.capRelease p ∈ (_convert_single_to_mp4 env p).2) ∧
    (Ev.sinkCreate (withSuffixMp4 p) ∈ (_convert_single_to_mp4 env p).2 →
      Ev.sinkRelease (withSuffixMp4 p) ∈ (_convert_single_to_mp4 env p).2) := by
  by_cases h1 : pyLower (pySuffix p) = ".mp4"
  · rw [convert_single_mp4 env p h1]
    refine ⟨fun hne => absurd h1 hne, ?_, ?_⟩
    · intro hmem _
      simp at hmem
    · intro hmem
      simp at hmem
  · unfold _convert_single_to_mp4
    rw [if_neg h1]
    by_cases h2 : (env.video p).opensOk = false
    · rw [if_pos h2]
      refine ⟨?_, ?_, ?_⟩
      · intro _ hop
        rw [hop] at h2
        cases h2
      · intro _ hop
        rw [hop] at h2
        cases h2
      · intro hmem
        simp at hmem
    · rw [if_neg h2]
      by_cases h3 : (env.video p).width = 0 ∨ (env.video p).height = 0
      · rw [if_pos h3]
        refine ⟨?_, fun _ _ => ?_, ?_⟩
        · intro _ _ hw hh _ _
          rcases h3 with h | h
          · exact absurd h hw
          · exact absurd h hh
        · simp
        · intro hmem
          simp at hmem
      · rw [if_neg h3]
        by_cases h4 : env.writerOk (withSuffixMp4 p) = false
        · rw [if_pos h4]
          refine ⟨?_, fun _ _ => ?_, ?_⟩
          · intro _ _ _ _ hw _
            rw [hw] at h4
            cases h4
          · simp
          · intro hmem
            simp at hmem
        · rw [if_neg h4]
          by_cases h5 : (env.video p).frames.length = 0
          · rw [if_pos h5]
            refine ⟨fun _ _ _ _ _ _ => ⟨rfl, ?_, ?_⟩, fun _ _ => ?_, fun _ => ?_⟩
            all_goals simp [copyLoop]
          · rw [if_neg h5]
            refine ⟨?_, fun _ _ => ?_, fun _ => ?_⟩
            · intro _ _ _ _ _ hfr
              rw [hfr] at h5
              simp at h5
            all_goals simp [copyLoop]

/-- Closed instance of C5: `root/e.wmv` opens with sane geometry but
decodes zero frames; the conversion fails and both handles are
released. -/
theorem convert_zero_frames_fails_and_releases_witness :
    (_convert_single_to_mp4 envA "root/e.wmv").1 = false ∧
    Ev.capRelease "root/e.wmv" ∈ (_convert_single_to_mp4 envA "root/e.wmv").2 ∧
    Ev.sinkRelease (withSuffixMp4 "root/e.wmv") ∈
      (_convert_single_to_mp4 envA "root/e.wmv").2 :=
  (convert_zero_frames_fails_and_releases envA "root/e.wmv").1
    (by decide) (by decide) (by decide) (by decide) (by decide) (by decide)

/-- C6: conversion of a path whose extension is already `.mp4`
(case-insensitively) is a pure no-op success: it returns true with a
single log line, opens nothing, creates nothing, and — being independent
of the environment — yields the same result on every repeated run. -/
theorem convert_mp4_noop_idempotent (env env2 : Env) (p : String)
    (h : pyLower (pySuffix p) = ".mp4") :
    _convert_single_to_mp4 env p =
      (true, [Ev.log ("File \x27" ++ p ++
        "\x27 is already in MP4 format, skipping conversion.")]) ∧
    _convert_single_to_mp4 env2 p = _convert_single_to_mp4 env p ∧
    writeFree (_convert_single_to_mp4 env p).2 = true ∧
    (env.isDir p = false → env.isFile p = true →
      (convert_to_mp4 env p).1 = true ∧
      writeFree (convert_to_mp4 env p).2 = true) := by
  have hv : is_video_file p = true := by
    unfold is_video_file
    rw [h]
    decide
  refine ⟨convert_single_mp4 env p h, ?_, ?_, ?_⟩
  · rw [convert_single_mp4 env p h, convert_single_mp4 env2 p h]
  · rw [convert_single_mp4 env p h]
    rfl
  · intro hnd hf
    unfold convert_to_mp4
    rw [if_neg (by rw [hnd]; simp), if_pos hf, if_neg (by rw [hv]; simp)]
    dsimp only
    rw [convert_single_mp4 env p h]
    exact ⟨rfl, rfl⟩

/-- Closed instance of C6: `root/c.mp4` is skipped with a log line, the
result does not depend on the filesystem, and the single-file entry
point reports success without writes. -/
theorem convert_mp4_noop_idempotent_witness :
    _convert_single_to_mp4 envA "root/c.mp4" =
      (true, [Ev.log "File \x27root/c.mp4\x27 is already in MP4 format, skipping conversion."]) ∧
    _convert_single_to_mp4 envM "root/c.mp4" =
      _convert_single_to_mp4 envA "root/c.mp4" ∧
    (convert_to_mp4 envA "root/c.mp4").1 = true ∧
    writeFree (convert_to_mp4 envA "root/c.mp4").2 = true := by
  have h := convert_mp4_noop_idempotent envA envM "root/c.mp4" (by decide)
  have h4 := h.2.2.2 (by decide) (by decide)
  exact ⟨by rw [h.1]; decide, h.2.1, h4.1, h4.2⟩

/-! ## Merge lemmas -/

lemma countWrites_append (a b : List Ev) :
    countWrites (a ++ b) = countWrites a + countWrites b := by
  induction a with
  | nil => simp [countWrites]
  | cons e t ih =>
    cases e <;> simp [countWrites, ih] <;> omega

lemma countWrites_mergeFrames (out : String) (w0 h0 : Nat) (fs : List Frame) :
    countWrites (mergeFrames out w0 h0 fs) = fs.length := by
  induction fs with
  | nil => rfl
  | cons f t ih => simp [mergeFrames, countWrites, ih]

lemma mergeFrames_dims (out : String) (w0 h0 : Nat) (fs : List Frame)
    (q : String) (fr : Frame)
    (hm : Ev.sinkWrite q fr ∈ mergeFrames out w0 h0 fs) :
    fr.width = w0 ∧ fr.height = h0 := by
  induction fs with
  | nil => cases hm
  | cons f t ih =>
    simp only [mergeFrames] at hm
    rcases List.mem_cons.mp hm with heq | hm2
    · by_cases hd : f.width ≠ w0 ∨ f.height ≠ h0
      · rw [if_pos hd] at heq
        obtain ⟨-, rfl⟩ := Ev.sinkWrite.inj heq
        exact ⟨rfl, rfl⟩
      · rw [if_neg hd] at heq
        obtain ⟨-, rfl⟩ := Ev.sinkWrite.inj heq
        push_neg at hd
        exact hd
    · exact ih hm2

lemma mergeSrcLoop_count (env : Env) (out : String) (w0 h0 : Nat)
    (vs : List String) :
    countWrites (mergeSrcLoop env out w0 h0 vs).1 = openSum env vs ∧
    (mergeSrcLoop env out w0 h0 vs).2 = openSum env vs := by
  induction vs with
  | nil => exact ⟨rfl, rfl⟩
  | cons v t ih =>
    cases hok : (env.video v).opensOk with
    | false =>
      simp only [mergeSrcLoop, openSum, hok]
      simp [countWrites, ih.1, ih.2]
    | true =>
      simp only [mergeSrcLoop, openSum, hok]
      constructor
      · by_cases hd : (env.video v).width ≠ w0 ∨ (env.video v).height ≠ h0
        · rw [if_pos hd]
          simp [countWrites, countWrites_append, countWrites_mergeFrames, ih.1]
        · rw [if_neg hd]
          simp [countWrites, countWrites_append, countWrites_mergeFrames, ih.1]
      · simp [ih.2]

lemma mergeSrcLoop_dims (env : Env) (out : String) (w0 h0 : Nat)
    (vs : List String) (q : String) (fr : Frame)
    (hm : Ev.sinkWrite q fr ∈ (mergeSrcLoop env out w0 h0 vs).1) :
    fr.width = w0 ∧ fr.height = h0 := by
  induction vs with
  | nil => cases hm
  | cons v t ih =>
    cases hok : (env.video v).opensOk with
    | false =>
      simp only [mergeSrcLoop, hok] at hm
      rcases List.mem_cons.mp hm with heq | hm1
      · exact Ev.noConfusion heq
      rcases List.mem_cons.mp hm1 with heq | hm2
      · exact Ev.noConfusion heq
      exact ih hm2
    | true =>
      simp only [mergeSrcLoop, hok] at hm
      rcases List.mem_cons.mp hm with heq | hm1
      · exact Ev.noConfusion heq
      rcases List.mem_append.mp hm1 with hm4 | hm5
      · by_cases hd : (env.video v).width ≠ w0 ∨ (env.video v).height ≠ h0
        · rw [if_pos hd] at hm4
          simp at hm4
          exact mergeFrames_dims out w0 h0 _ q fr hm4
        · rw [if_neg hd] at hm4
          simp at hm4
          exact mergeFrames_dims out w0 h0 _ q fr hm4
      rcases List.mem_cons.mp hm5 with heq | hm8
      · exact Ev.noConfusion heq
      exact ih hm8

/-- Branch analysis of the merge body on a list of two or more videos:
success is equivalent to the reference data being usable and the sink
creatable, and also equivalent to the sink-created effect being in the
trace. -/
lemma mergeWithVids_result (env : Env) (dir v0 v1 : String) (rest : List String) :
    ((mergeWithVids env dir (v0 :: v1 :: rest)).1 = true ↔
      ((env.video v0).opensOk = true ∧ (env.video v0).width ≠ 0 ∧
        (env.video v0).height ≠ 0 ∧
        env.writerOk (pathJoin dir "merged_output.mp4") = true)) ∧
    ((mergeWithVids env dir (v0 :: v1 :: rest)).1 = true ↔
      Ev.sinkCreate (pathJoin dir "merged_output.mp4") ∈
        (mergeWithVids env dir (v0 :: v1 :: rest)).2) := by
  by_cases h1 : (env.video v0).opensOk = false
  · simp only [mergeWithVids, if_pos h1]
    refine ⟨⟨fun h => Bool.noConfusion h, ?_⟩, ⟨fun h => Bool.noConfusion h, ?_⟩⟩
    · rintro ⟨ho, -⟩
      rw [ho] at h1
      exact Bool.noConfusion h1
    · intro hmem
      simp at hmem
  · by_cases h2 : (env.video v0).width = 0 ∨ (env.video v0).height = 0
    · simp only [mergeWithVids, if_neg h1, if_pos h2]
      refine ⟨⟨fun h => Bool.noConfusion h, ?_⟩, ⟨fun h => Bool.noConfusion h, ?_⟩⟩
      · rintro ⟨-, hw, hh, -⟩
        rcases h2 with h | h
        · exact absurd h hw
        · exact absurd h hh
      · intro hmem
        simp at hmem
    · by_cases h3 : env.writerOk (pathJoin dir "merged_output.mp4") = false
      · simp only [mergeWithVids, if_neg h1, if_neg h2, if_pos h3]
        refine ⟨⟨fun h => Bool.noConfusion h, ?_⟩, ⟨fun h => Bool.noConfusion h, ?_⟩⟩
        · rintro ⟨-, -, -, hw⟩
          rw [hw] at h3
          exact Bool.noConfusion h3
        · intro hmem
          simp at hmem
      · simp only [mergeWithVids, if_neg h1, if_neg h2, if_neg h3]
        have ho : (env.video v0).opensOk = true := by
          cases hx : (env.video v0).opensOk
          · exact absurd hx h1
          · rfl
        have hw : env.writerOk (pathJoin dir "merged_output.mp4") = true := by
          cases hx : env.writerOk (pathJoin dir "merged_output.mp4")
          · exact absurd hx h3
          · rfl
        push_neg at h2
        constructor
        · simp [ho, hw, h2.1, h2.2]
        · simp

/-- C2: with at least two qualifying videos, the per-directory merge
reports success exactly when the reference stream (the first sorted
video) opens with nonzero geometry and the sink can be created —
equivalently, exactly when the sink handle was created.  Whether the
remaining sources open plays no role in the result. -/
theorem merge_success_iff_sink (env : Env) (dir v0 v1 : String)
    (rest : List String) (h : qualifyingVids env dir = v0 :: v1 :: rest) :
    ((_merge_dir env dir).1 = true ↔
      ((env.video v0).opensOk = true ∧ (env.video v0).width ≠ 0 ∧
        (env.video v0).height ≠ 0 ∧
        env.writerOk (pathJoin dir "merged_output.mp4") = true)) ∧
    ((_merge_dir env dir).1 = true ↔
      Ev.sinkCreate (pathJoin dir "merged_output.mp4") ∈ (_merge_dir env dir).2) := by
  unfold _merge_dir
  rw [h]
  exact mergeWithVids_result env dir v0 v1 rest

/-- Closed instance of C2: in `d` the middle source fails to open, yet
the merge succeeds and the sink was created. -/
theorem merge_success_iff_sink_witness :
    qualifyingVids envM "d" = ["d/a.mp4", "d/b.avi", "d/s.mkv"] ∧
    (envM.video "d/b.avi").opensOk = false ∧
    (_merge_dir envM "d").1 = true ∧
    Ev.sinkCreate "d/merged_output.mp4" ∈ (_merge_dir envM "d").2 := by
  have h := merge_success_iff_sink envM "d" "d/a.mp4" "d/b.avi" ["d/s.mkv"]
    (by decide)
  have h1 : (_merge_dir envM "d").1 = true :=
    h.1.mpr ⟨by decide, by decide, by decide, by decide⟩
  exact ⟨by decide, by decide, h1, h.2.mp h1⟩

/-- C4: the number of frames written to the merge sink equals the sum of
the decoded frame counts of exactly those qualifying sources that opened
successfully; sources that fail to open contribute nothing. -/
theorem merge_frame_count (env : Env) (dir v0 v1 : String) (rest : List String)
    (h : qualifyingVids env dir = v0 :: v1 :: rest)
    (ho : (env.video v0).opensOk = true)
    (hw : (env.video v0).width ≠ 0) (hh : (env.video v0).height ≠ 0)
    (hwr : env.writerOk (pathJoin dir "merged_output.mp4") = true) :
    countWrites (_merge_dir env dir).2 = openSum env (v0 :: v1 :: rest) := by
  unfold _merge_dir
  rw [h]
  simp only [mergeWithVids,
    if_neg (show ¬(env.video v0).opensOk = false by rw [ho]; simp),
    if_neg (show ¬((env.video v0).width = 0 ∨ (env.video v0).height = 0) from by
      push_neg
      exact ⟨hw, hh⟩),
    if_neg (show ¬env.writerOk (pathJoin dir "merged_output.mp4") = false by
      rw [hwr]; simp)]
  simp [countWrites, countWrites_append,
    (mergeSrcLoop_count env (pathJoin dir "merged_output.mp4")
      (env.video v0).width (env.video v0).height (v0 :: v1 :: rest)).1]

/-- Closed instance of C4: `d` holds sources with 2, (unopenable), and 1
frames; exactly 3 frames are written. -/
theorem merge_frame_count_witness :
    countWrites (_merge_dir envM "d").2 =
      openSum envM ["d/a.mp4", "d/b.avi", "d/s.mkv"] ∧
    countWrites (_merge_dir envM "d").2 = 3 := by
  have h := merge_frame_count envM "d" "d/a.mp4" "d/b.avi" ["d/s.mkv"]
    (by decide) (by decide) (by decide) (by decide) (by decide)
  exact ⟨h, by rw [h]; decide⟩

/-- C8: every frame written during a directory merge has exactly the
reference geometry of the first sorted video; a decoded frame whose
dimensions differ is resized to that geometry before writing. -/
theorem merge_reference_geometry (env : Env) (dir v0 v1 : String)
    (rest : List String) (h : qualifyingVids env dir = v0 :: v1 :: rest)
    (q : String) (fr : Frame)
    (hm : Ev.sinkWrite q fr ∈ (_merge_dir env dir).2) :
    fr.width = (env.video v0).width ∧ fr.height = (env.video v0).height := by
  unfold _merge_dir at hm
  rw [h] at hm
  by_cases h1 : (env.video v0).opensOk = false
  · simp only [mergeWithVids, if_pos h1] at hm
    simp at hm
  · by_cases h2 : (env.video v0).width = 0 ∨ (env.video v0).height = 0
    · simp only [mergeWithVids, if_neg h1, if_pos h2] at hm
      simp at hm
    · by_cases h3 : env.writerOk (pathJoin dir "merged_output.mp4") = false
      · simp only [mergeWithVids, if_neg h1, if_neg h2, if_pos h3] at hm
        simp at hm
      · simp only [mergeWithVids, if_neg h1, if_neg h2, if_neg h3] at hm
        rcases List.mem_append.mp hm with hma | hmb
        · rcases List.mem_append.mp hma with hmc | hmd
          · simp at hmc
          · exact mergeSrcLoop_dims env _ _ _ _ q fr hmd
        · simp at hmb

/-- Closed instance of C8: the 2×2 second frame of `d/a.mp4` is written
resized to the 4×3 reference geometry. -/
theorem merge_reference_geometry_witness :
    Ev.sinkWrite "d/merged_output.mp4" (⟨4, 3, 11⟩ : Frame) ∈
      (_merge_dir envM "d").2 ∧
    ((⟨4, 3, 11⟩ : Frame).width = (envM.video "d/a.mp4").width ∧
     (⟨4, 3, 11⟩ : Frame).height = (envM.video "d/a.mp4").height) := by
  have hmem : Ev.sinkWrite "d/merged_output.mp4" (⟨4, 3, 11⟩ : Frame) ∈
      (_merge_dir envM "d").2 := by decide
  exact ⟨hmem, merge_reference_geometry envM "d" "d/a.mp4" "d/b.avi"
    ["d/s.mkv"] (by decide) _ _ hmem⟩

/-- The per-source merge loop never consults the `isFile` predicate. -/
lemma mergeSrcLoop_isFile_irrel (env : Env) (g : String → Bool)
    (out : String) (w0 h0 : Nat) :
    ∀ vs, mergeSrcLoop { env with isFile := g } out w0 h0 vs =
      mergeSrcLoop env out w0 h0 vs := by
  intro vs
  induction vs with
  | nil => rfl
  | cons v t ih =>
    simp only [mergeSrcLoop, ih]

/-- The merge body never consults the `isFile` predicate. -/
lemma mergeWithVids_isFile_irrel (env : Env) (g : String → Bool)
    (dir : String) (vs : List String) :
    mergeWithVids { env with isFile := g } dir vs = mergeWithVids env dir vs := by
  cases vs with
  | nil => rfl
  | cons v0 rest =>
    cases rest with
    | nil => rfl
    | cons v1 rest2 =>
      simp only [mergeWithVids, mergeSrcLoop_isFile_irrel]

/-- `_merge_dir` is independent of the `isFile` predicate. -/
lemma merge_dir_isFile_irrel (env : Env) (g : String → Bool) (dir : String) :
    _merge_dir { env with isFile := g } dir = _merge_dir env dir := by
  unfold _merge_dir
  rw [mergeWithVids_isFile_irrel]
  rfl

/-- C10: the merge classifies directory entries purely by extension and
never consults the regular-file predicate — `_merge_dir` is literally
independent of `isFile` — so an entry that is a subdirectory with a
video-suffixed name counts toward the two-file minimum: a directory
listing one real video plus such an entry has two qualifying videos and,
when the reference opens, is merged into `merged_output.mp4` rather than
skipped. -/
theorem merge_ignores_regular_file_check (env : Env) (g : String → Bool)
    (dir a b : String)
    (hld : env.listdir dir = [a, b])
    (hva : is_video_file (pathJoin dir a) = true)
    (hvb : is_video_file (pathJoin dir b) = true) :
    _merge_dir { env with isFile := g } dir = _merge_dir env dir ∧
    (qualifyingVids env dir).length = 2 ∧
    (∀ x y : String, qualifyingVids env dir = [x, y] →
      (env.video x).opensOk = true → (env.video x).width ≠ 0 →
      (env.video x).height ≠ 0 →
      env.writerOk (pathJoin dir "merged_output.mp4") = true →
      Ev.sinkCreate (pathJoin dir "merged_output.mp4") ∈ (_merge_dir env dir).2) := by
  have hq : qualifyingVids env dir =
      sortStrings [pathJoin dir a, pathJoin dir b] := by
    unfold qualifyingVids
    rw [hld]
    simp [hva, hvb]
  refine ⟨merge_dir_isFile_irrel env g dir, ?_, ?_⟩
  · rw [hq]
    simp only [sortStrings, List.foldr, insertSorted]
    by_cases hle : strLe (pathJoin dir a) (pathJoin dir b) = true
    · rw [if_pos hle]
      rfl
    · rw [if_neg hle]
      rfl
  · intro x y hc hx1 hx2 hx3 hwr
    have h2 := mergeWithVids_result env dir x y []
    have e : _merge_dir env dir = mergeWithVids env dir [x, y] := by
      unfold _merge_dir
      rw [hc]
    rw [e]
    exact h2.2.mp (h2.1.mpr ⟨hx1, hx2, hx3, hwr⟩)

/-- Closed instance of C10: `e` lists one real video plus a subdirectory
named `sub.avi`; both count as qualifying videos and the directory is
merged, producing `e/merged_output.mp4`. -/
theorem merge_ignores_regular_file_check_witness :
    envM.isFile "e/sub.avi" = false ∧
    (qualifyingVids envM "e").length = 2 ∧
    Ev.sinkCreate "e/merged_output.mp4" ∈ (_merge_dir envM "e").2 := by
  have h := merge_ignores_regular_file_check envM (fun _ => true) "e"
    "sub.avi" "one.mp4" (by decide) (by decide) (by decide)
  exact ⟨by decide, h.2.1,
    h.2.2 "e/one.mp4" "e/sub.avi" (by decide) (by decide) (by decide)
      (by decide) (by decide)⟩
